import Mathlib

/-!
# Resource-pack model of 0x40hues (`src/respack.hpp`, `src/common.hpp`)

A shallow embedding of the headers' inline code: the beat and alignment
grammars, the `ImageResource` descriptor, the two-track `AudioResource` with
its accessors, the `ResourcePack` catalog and the log helper of `common.hpp`,
followed by the properties established about them.

Conventions of the embedding:
* a C++ `char` is a `Char`, a `std::string` a `String`;
* a C++ `int` is an `Int`, and 32-bit arithmetic is made explicit with `wrapInt`;
* a `size_t` is a `Nat` below `2 ^ 64`;
* a C++ `double` is a `Double`: a binary64 value, with the results of division
  and multiplication rounded to nearest, ties to even;
* a `uint8_t*` is an `Option (List Nat)`: `none` is the null pointer, `some bs`
  a pointer to the bytes `bs`.
-/

/-! ## Definitions -/

/-- Alignment for upscaled images and non-matching aspect ratios
(`enum class ImageResource::Align`). -/
inductive ImageResource.Align
  | LEFT
  | CENTER
  | RIGHT
  deriving DecidableEq, Repr

/-- The transition events of a beatmap (`enum class AudioResource::Beat`). -/
inductive AudioResource.Beat
  | VERTICAL_BLUR
  | HORIZONTAL_BLUR
  | NO_BLUR
  | BLACKOUT
  | SHORT_BLACKOUT
  | COLOR_ONLY
  | IMAGE_ONLY
  | NO_TRANSITION
  deriving DecidableEq, Repr

/-- The track discriminator (`enum class AudioResource::Type`). -/
inductive AudioResource.Type_
  | LOOP
  | BUILDUP
  deriving DecidableEq, Repr

/-- The descriptor of an image: `base_path`, `image_name`, `alignment`. -/
structure ImageResource where
  base_path : String
  image_name : String
  alignment : ImageResource.Align
  deriving DecidableEq, Repr

namespace ImageResource

/-- The constructor `ImageResource(base_path, name, alignment)`. -/
def new (base_path name : String) (alignment : Align) : ImageResource :=
  { base_path := base_path, image_name := name, alignment := alignment }

/-- The accessor `GetName`. -/
def GetName (self : ImageResource) : String := self.image_name

/-- The accessor `GetAlignment`. -/
def GetAlignment (self : ImageResource) : Align := self.alignment

/-- The static `ParseAlignmentString`: an `if / else if` chain over string
equality, with `CENTER` returned after the chain. -/
def ParseAlignmentString (align : String) : Align :=
  if align = "left" then Align.LEFT
  else if align = "center" then Align.CENTER
  else if align = "right" then Align.RIGHT
  else Align.CENTER

end ImageResource

/-- A C++ `double` (IEEE 754 binary64). A finite value is kept as the rational
it is equal to, and the two zeros are not told apart; the other values are the
two infinities and NaN. -/
inductive Double
  | num (q : ℚ)
  | inf (negative : Bool)
  | nan
  deriving DecidableEq

namespace Double

/-- The conversion of an `int` operand to `double`, which is exact: every
32-bit integer is a binary64 value. -/
def ofInt (i : Int) : Double := num i

/-- The integer nearest to `x`, the even one of the two when `x` lies half way
between them. -/
def roundHalfEven (x : ℚ) : ℤ :=
  if x - ⌊x⌋ < 1 / 2 then ⌊x⌋
  else if 1 / 2 < x - ⌊x⌋ then ⌊x⌋ + 1
  else if ⌊x⌋ % 2 = 0 then ⌊x⌋ else ⌊x⌋ + 1

/-- The binary64 value of an exact result `q`, rounded to nearest, ties to
even: with `e` the binary exponent of `q`, at least `-1022`, the magnitude
becomes the nearest multiple of `2 ^ (e - 52)` (a significand of 53 bits), and
a magnitude that reaches `2 ^ 1024` becomes an infinity. -/
def roundNearest (q : ℚ) : Double :=
  if q = 0 then num 0
  else
    let e : ℤ := max (Int.log 2 |q|) (-1022)
    let r : ℚ := roundHalfEven (|q| / 2 ^ (e - 52)) * 2 ^ (e - 52)
    if 2 ^ 1024 ≤ r then inf (decide (q < 0)) else num (if q < 0 then -r else r)

/-- Division of doubles: the exact quotient, rounded. A finite value divided
by zero is an infinity, or NaN when the dividend is zero as well (the zero
divisors met here come from an `int` and are positive zeros). -/
def div : Double → Double → Double
  | nan, _ => nan
  | _, nan => nan
  | inf _, inf _ => nan
  | inf s, num b => inf (xor s (decide (b < 0)))
  | num _, inf _ => num 0
  | num a, num b =>
    if b = 0 then (if a = 0 then nan else inf (decide (a < 0))) else roundNearest (a / b)

/-- Multiplication of doubles: the exact product, rounded. -/
def mul : Double → Double → Double
  | nan, _ => nan
  | _, nan => nan
  | inf s, inf t => inf (xor s t)
  | inf s, num b => if b = 0 then nan else inf (xor s (decide (b < 0)))
  | num a, inf t => if a = 0 then nan else inf (xor (decide (a < 0)) t)
  | num a, num b => roundNearest (a * b)

end Double

/-- The value of an `int` expression whose mathematical result is `x`: the
result taken modulo `2 ^ 32` into the range from `-2 ^ 31` up to `2 ^ 31`
(signed overflow is undefined in C++; this is the wrap-around of the usual
two's-complement targets). -/
def wrapInt (x : Int) : Int := (x + 2 ^ 31) % 2 ^ 32 - 2 ^ 31

/-- The conversion of an `int` to a 64-bit `size_t`. -/
def toSize (x : Int) : Nat := (x % 2 ^ 64).toNat

/-- The per-track record `struct song_info`. -/
structure AudioResource.song_info where
  name : String
  beatmap : String
  pcm_data : Option (List Nat)
  channel_count : Int
  sample_count : Int
  sample_rate : Int
  usec_per_beat : Double
  deriving DecidableEq

/-- The contents of the storage of a `song_info` in the members that its
constructor leaves uninitialised. -/
structure AudioResource.Storage where
  pcm_data : Option (List Nat)
  channel_count : Int
  sample_count : Int
  sample_rate : Int
  usec_per_beat : Double
  deriving DecidableEq

/-- The constructor `song_info(const string& name) : name(name) {}`: the name
is set, the beatmap is a default-constructed (empty) string, and the other
members keep what the storage held. -/
def AudioResource.song_info.new (name : String) (mem : AudioResource.Storage) :
    AudioResource.song_info :=
  { name := name
    beatmap := ""
    pcm_data := mem.pcm_data
    channel_count := mem.channel_count
    sample_count := mem.sample_count
    sample_rate := mem.sample_rate
    usec_per_beat := mem.usec_per_beat }

/-- A song: the members `buildup`, `loop`, `base_path` and `song_title`. -/
structure AudioResource where
  buildup : AudioResource.song_info
  loop : AudioResource.song_info
  base_path : String
  song_title : String
  deriving DecidableEq

/-- Modelled from the spec: the result of the external audio-decode
collaborator, which "returns interleaved 16-bit little-endian PCM samples,
channel count, and sample rate"; `ReadAndDecode` "records
channel_count/sample_count/sample_rate from the decoded stream". -/
structure AudioResource.Decoded where
  pcm : List Nat
  channel_count : Int
  sample_count : Int
  sample_rate : Int
  deriving DecidableEq

namespace AudioResource

/-- The constructor `AudioResource(base_path, song_title, loop_name,
buildup_name)` with its initialiser list `buildup(buildup_name),
loop(loop_name), base_path(base_path), song_title(song_title)`. The two extra
arguments are the prior contents of the storage of the two records. -/
def new (base_path song_title loop_name buildup_name : String)
    (buildup_mem loop_mem : Storage) : AudioResource :=
  { buildup := song_info.new buildup_name buildup_mem
    loop := song_info.new loop_name loop_mem
    base_path := base_path
    song_title := song_title }

/-- The expression `(type == Type::LOOP ? this->loop : this->buildup)` that
every accessor starts from. -/
def track (self : AudioResource) (type : Type_) : song_info :=
  if type = Type_.LOOP then self.loop else self.buildup

/-- Returns whether or not this song has a buildup:
`!this->buildup.name.empty()`. -/
def HasBuildup (self : AudioResource) : Bool := !self.buildup.name.isEmpty

/-- The accessor `GetTitle`. -/
def GetTitle (self : AudioResource) : String := self.song_title

/-- The accessor `GetName`. -/
def GetName (self : AudioResource) (type : Type_) : String :=
  (self.track type).name

/-- The accessor `GetBeatmap`. -/
def GetBeatmap (self : AudioResource) (type : Type_) : String :=
  (self.track type).beatmap

/-- The accessor `GetSongDurationUsec`:
`(double) sample_count / sample_rate * 1000 * 1000`, evaluated from the left
with the `int` operands converted to `double`; the division and the two
multiplications are operations on doubles, each of which rounds. -/
def GetSongDurationUsec (self : AudioResource) (type : Type_) : Double :=
  Double.mul
    (Double.mul
      (Double.div (Double.ofInt (self.track type).sample_count)
        (Double.ofInt (self.track type).sample_rate))
      (Double.ofInt 1000))
    (Double.ofInt 1000)

/-- The accessor `GetBeatDurationUsec`. -/
def GetBeatDurationUsec (self : AudioResource) (type : Type_) : Double :=
  (self.track type).usec_per_beat

/-- The accessor `GetPcmData`. -/
def GetPcmData (self : AudioResource) (type : Type_) : Option (List Nat) :=
  (self.track type).pcm_data

/-- The accessor `GetChannelCount`. -/
def GetChannelCount (self : AudioResource) (type : Type_) : Int :=
  (self.track type).channel_count

/-- The accessor `GetSampleRate`. -/
def GetSampleRate (self : AudioResource) (type : Type_) : Int :=
  (self.track type).sample_rate

/-- The accessor `GetPcmDataSize`:
`sample_count * GetChannelCount(type) * 2`, two `int` multiplications whose
result is converted to `size_t`. -/
def GetPcmDataSize (self : AudioResource) (type : Type_) : Nat :=
  toSize (wrapInt (wrapInt ((self.track type).sample_count * self.GetChannelCount type) * 2))

/-- The private mutator `SetBuildupBeatmap`. -/
def SetBuildupBeatmap (self : AudioResource) (beatmap : String) : AudioResource :=
  { self with buildup := { self.buildup with beatmap := beatmap } }

/-- The private mutator `SetLoopBeatmap`. -/
def SetLoopBeatmap (self : AudioResource) (beatmap : String) : AudioResource :=
  { self with loop := { self.loop with beatmap := beatmap } }

/-- Modelled from the spec: the body of `AudioResource::ReadAndDecode`, which
the header only declares. "If the track's PCM buffer is already populated, this
call is a no-op; otherwise it invokes the external audio-decode collaborator on
the track's backing file, producing a 16-bit-per-channel, little-endian,
interleaved PCM buffer, and records channel_count/sample_count/sample_rate from
the decoded stream." The collaborator is the argument `decode`, given the base
path and the name of the track. -/
def ReadAndDecode (decode : String → String → Decoded) (self : AudioResource)
    (audio_type : Type_) : AudioResource :=
  let info := self.track audio_type
  match info.pcm_data with
  | some _ => self
  | none =>
    let d := decode self.base_path info.name
    let info' : song_info :=
      { info with
        pcm_data := some d.pcm
        channel_count := d.channel_count
        sample_count := d.sample_count
        sample_rate := d.sample_rate }
    if audio_type = Type_.LOOP then { self with loop := info' }
    else { self with buildup := info' }

/-- The operations that change an `AudioResource` after its construction. -/
inductive Op
  | SetBuildupBeatmap (beatmap : String)
  | SetLoopBeatmap (beatmap : String)
  | ReadAndDecode (decode : String → String → Decoded) (audio_type : Type_)

/-- The effect of one operation. -/
def Op.apply (self : AudioResource) : Op → AudioResource
  | Op.SetBuildupBeatmap b => self.SetBuildupBeatmap b
  | Op.SetLoopBeatmap b => self.SetLoopBeatmap b
  | Op.ReadAndDecode decode t => self.ReadAndDecode decode t

/-- The effect of a sequence of operations, applied from the left. -/
def run (self : AudioResource) (ops : List Op) : AudioResource :=
  ops.foldl Op.apply self

/-- Whether the PCM buffer of a track is populated. -/
def decoded (self : AudioResource) (type : Type_) : Bool :=
  (self.track type).pcm_data.isSome

/-- The static `ParseBeatCharacter`: a `switch` over the character with eight
`case` labels, and `NO_TRANSITION` returned after the `switch`. -/
def ParseBeatCharacter (beatChar : Char) : Beat :=
  match beatChar with
  | 'x' => Beat.VERTICAL_BLUR
  | 'o' => Beat.HORIZONTAL_BLUR
  | '-' => Beat.NO_BLUR
  | '+' => Beat.BLACKOUT
  | '|' => Beat.SHORT_BLACKOUT
  | ':' => Beat.COLOR_ONLY
  | '*' => Beat.IMAGE_ONLY
  | '.' => Beat.NO_TRANSITION
  | _ => Beat.NO_TRANSITION

end AudioResource

/-- The catalog `class ResourcePack`: the members `base_path`, `song_list` and
`image_list`. The vectors of pointers are lists of the resources pointed to. -/
structure ResourcePack where
  base_path : String
  song_list : List AudioResource
  image_list : List ImageResource

namespace ResourcePack

/-- The constructor `ResourcePack(path)`: the base path is set and both
vectors are empty. -/
def new (path : String) : ResourcePack :=
  { base_path := path, song_list := [], image_list := [] }

/-- Modelled from the spec: the body of `ResourcePack::GetAllSongs`, which the
header only declares, as a `const` member. It is to "append borrowed
references to all catalog entries into the caller-supplied collection, in
parse order; return the count appended". The result is the pack after the
call, the collection after the call and the returned count. -/
def GetAllSongs (self : ResourcePack) (song_list : List AudioResource) :
    ResourcePack × List AudioResource × Int :=
  (self, song_list ++ self.song_list, (self.song_list.length : Int))

/-- Modelled from the spec: the body of `ResourcePack::GetAllImages`, which the
header only declares, as a `const` member. It is to "append borrowed
references to all catalog entries into the caller-supplied collection, in
parse order; return the count appended". The result is the pack after the
call, the collection after the call and the returned count. -/
def GetAllImages (self : ResourcePack) (image_list : List ImageResource) :
    ResourcePack × List ImageResource × Int :=
  (self, image_list ++ self.image_list, (self.image_list.length : Int))

end ResourcePack

/-! ### The log helper of `src/common.hpp`

The members of `std::string` that `__transform_pretty_function` calls, over
lists of characters, with positions and counts of type `size_t`. -/

/-- The constant `std::string::npos`, the largest `size_t`. -/
def npos : Nat := 2 ^ 64 - 1

/-- The lowest position at which `pat` occurs in `s`, if there is one. -/
def firstOcc (pat : List Char) : List Char → Option Nat
  | [] => if pat.isPrefixOf [] then some 0 else none
  | c :: cs =>
    if pat.isPrefixOf (c :: cs) then some 0 else (firstOcc pat cs).map (· + 1)

/-- The highest position at which `pat` occurs in `s`, if there is one. -/
def lastOcc (pat : List Char) : List Char → Option Nat
  | [] => if pat.isPrefixOf [] then some 0 else none
  | c :: cs =>
    match lastOcc pat cs with
    | some i => some (i + 1)
    | none => if pat.isPrefixOf (c :: cs) then some 0 else none

/-- The call `s.find(pat)`: the position of the first occurrence of `pat`, or
`npos` when there is none. -/
def find (s pat : List Char) : Nat := (firstOcc pat s).getD npos

/-- The call `s.rfind(pat)`: the position of the last occurrence of `pat`, or
`npos` when there is none. -/
def rfind (s pat : List Char) : Nat := (lastOcc pat s).getD npos

/-- The call `s.substr(pos, count)`: it throws `std::out_of_range` (here
`none`) when `pos` exceeds the size, and otherwise gives the characters from
`pos` on, `count` of them or as many as remain. -/
def substr (s : List Char) (pos count : Nat) : Option (List Char) :=
  if pos > s.length then none else some ((s.drop pos).take count)

/-- The inline `__transform_pretty_function` of `common.hpp`:
`colons = fn.find("::")`, `begin = fn.substr(0, colons).rfind(" ") + 1`,
`end = fn.rfind("(") - begin` and the result `fn.substr(begin, end) + "()"`,
with the `size_t` sum and difference taken modulo `2 ^ 64`. -/
def __transform_pretty_function (fn : String) : Option String := do
  let colons := find fn.data "::".data
  let head ← substr fn.data 0 colons
  let begin := (rfind head " ".data + 1) % 2 ^ 64
  let end_ := (rfind fn.data "(".data + 2 ^ 64 - begin) % 2 ^ 64
  let body ← substr fn.data begin end_
  pure (String.mk body ++ "()")

/-! ### Example states -/

namespace AudioResource

/-- A storage whose members are all zero. -/
def zeroMem : Storage :=
  { pcm_data := none, channel_count := 0, sample_count := 0, sample_rate := 0,
    usec_per_beat := Double.num 0 }

/-- A song without buildup, freshly constructed in zero-filled storage. -/
def freshSong : AudioResource := new "pack" "Test" "loop1" "" zeroMem zeroMem

/-- A song constructed with an empty loop name. -/
def unnamedSong : AudioResource := new "pack" "Test" "" "" zeroMem zeroMem

/-- A track in the state that a decode leaves: the given PCM bytes and counts,
under the name `loop1` and with the beatmap `x-o.`. -/
def decodedTrack (pcm : List Nat) (channel_count sample_count sample_rate : Int) :
    song_info :=
  { name := "loop1", beatmap := "x-o.", pcm_data := some pcm,
    channel_count := channel_count, sample_count := sample_count,
    sample_rate := sample_rate, usec_per_beat := Double.num 500000 }

/-- A song whose loop holds `sample_count` samples in `channel_count` channels
at the rate `sample_rate`, and that has no buildup. -/
def songWith (channel_count sample_count sample_rate : Int) : AudioResource :=
  { buildup := song_info.new "" zeroMem
    loop := decodedTrack (List.replicate (sample_count * channel_count * 2).toNat 0)
      channel_count sample_count sample_rate
    base_path := "pack"
    song_title := "Test" }

end AudioResource

/-- A song with a buildup: the loop `loop1` and the buildup `build1`. -/
def AudioResource.buildupSong : AudioResource :=
  AudioResource.new "pack" "Test" "loop1" "build1" AudioResource.zeroMem AudioResource.zeroMem

/-- A pack whose catalog holds one song, which has a buildup, and one image
aligned to the right. -/
def ResourcePack.smallPack : ResourcePack :=
  { base_path := "pack"
    song_list := [AudioResource.buildupSong]
    image_list := [ImageResource.new "pack" "bg1" (ImageResource.ParseAlignmentString "right")] }

/-! ## Theorems -/

namespace AudioResource

/-- C1: `ParseBeatCharacter` maps each of the eight defined beat characters to
its event: `x` to `VERTICAL_BLUR`, `o` to `HORIZONTAL_BLUR`, `-` to `NO_BLUR`,
`+` to `BLACKOUT`, `|` to `SHORT_BLACKOUT`, `:` to `COLOR_ONLY`, `*` to
`IMAGE_ONLY` and `.` to `NO_TRANSITION`. -/
theorem ParseBeatCharacter_defined :
    ParseBeatCharacter 'x' = Beat.VERTICAL_BLUR ∧
    ParseBeatCharacter 'o' = Beat.HORIZONTAL_BLUR ∧
    ParseBeatCharacter '-' = Beat.NO_BLUR ∧
    ParseBeatCharacter '+' = Beat.BLACKOUT ∧
    ParseBeatCharacter '|' = Beat.SHORT_BLACKOUT ∧
    ParseBeatCharacter ':' = Beat.COLOR_ONLY ∧
    ParseBeatCharacter '*' = Beat.IMAGE_ONLY ∧
    ParseBeatCharacter '.' = Beat.NO_TRANSITION := by
  decide

/-- C2: `ParseBeatCharacter` is total and lenient: every character that is not
one of the eight beat characters is mapped to `NO_TRANSITION`. -/
theorem ParseBeatCharacter_other (c : Char)
    (hx : c ≠ 'x') (ho : c ≠ 'o') (hm : c ≠ '-') (hp : c ≠ '+')
    (hb : c ≠ '|') (hc : c ≠ ':') (hs : c ≠ '*') (hd : c ≠ '.') :
    ParseBeatCharacter c = Beat.NO_TRANSITION := by
  unfold ParseBeatCharacter
  split <;> first | rfl | contradiction

/-- The instances of C2 named in the specification: `q`, the blank, the NUL
character and the upper-case `X` and `O` all give `NO_TRANSITION`. -/
theorem ParseBeatCharacter_other_witness :
    ParseBeatCharacter 'q' = Beat.NO_TRANSITION ∧
    ParseBeatCharacter ' ' = Beat.NO_TRANSITION ∧
    ParseBeatCharacter (Char.ofNat 0) = Beat.NO_TRANSITION ∧
    ParseBeatCharacter 'X' = Beat.NO_TRANSITION ∧
    ParseBeatCharacter 'O' = Beat.NO_TRANSITION :=
  ⟨ParseBeatCharacter_other 'q' (by decide) (by decide) (by decide) (by decide)
      (by decide) (by decide) (by decide) (by decide),
   ParseBeatCharacter_other ' ' (by decide) (by decide) (by decide) (by decide)
      (by decide) (by decide) (by decide) (by decide),
   ParseBeatCharacter_other (Char.ofNat 0) (by decide) (by decide) (by decide) (by decide)
      (by decide) (by decide) (by decide) (by decide),
   ParseBeatCharacter_other 'X' (by decide) (by decide) (by decide) (by decide)
      (by decide) (by decide) (by decide) (by decide),
   ParseBeatCharacter_other 'O' (by decide) (by decide) (by decide) (by decide)
      (by decide) (by decide) (by decide) (by decide)⟩

end AudioResource

namespace ImageResource

/-- C3: `ParseAlignmentString` returns `LEFT` for `"left"`, `CENTER` for
`"center"` and `RIGHT` for `"right"`. -/
theorem ParseAlignmentString_defined :
    ParseAlignmentString "left" = Align.LEFT ∧
    ParseAlignmentString "center" = Align.CENTER ∧
    ParseAlignmentString "right" = Align.RIGHT := by
  decide

/-- C4: `ParseAlignmentString` is total and lenient: every string other than
`"left"`, `"center"` and `"right"` gives `CENTER`; the result is `LEFT` exactly
for the string `"left"` and `RIGHT` exactly for the string `"right"`; and the
comparison is sensitive to case and to blanks. -/
theorem ParseAlignmentString_other (s : String)
    (hl : s ≠ "left") (hc : s ≠ "center") (hr : s ≠ "right") :
    ParseAlignmentString s = Align.CENTER ∧
    (∀ t : String, ParseAlignmentString t = Align.LEFT ↔ t = "left") ∧
    (∀ t : String, ParseAlignmentString t = Align.RIGHT ↔ t = "right") := by
  refine ⟨by simp [ParseAlignmentString, hl, hc, hr], fun t => ?_, fun t => ?_⟩
  · unfold ParseAlignmentString
    constructor
    · intro h
      split at h
      · assumption
      · split at h
        · cases h
        · split at h <;> cases h
    · intro h
      simp [h]
  · unfold ParseAlignmentString
    constructor
    · intro h
      split at h
      · cases h
      · split at h
        · cases h
        · split at h
          · assumption
          · cases h
    · intro h
      subst h
      decide

/-- The instances of C4 named in the specification: `"LEFT"`, the empty
string, `"middle"` and `" left"` all give `CENTER`. -/
theorem ParseAlignmentString_other_witness :
    ParseAlignmentString "LEFT" = Align.CENTER ∧
    ParseAlignmentString "" = Align.CENTER ∧
    ParseAlignmentString "middle" = Align.CENTER ∧
    ParseAlignmentString " left" = Align.CENTER :=
  ⟨(ParseAlignmentString_other "LEFT" (by decide) (by decide) (by decide)).1,
   (ParseAlignmentString_other "" (by decide) (by decide) (by decide)).1,
   (ParseAlignmentString_other "middle" (by decide) (by decide) (by decide)).1,
   (ParseAlignmentString_other " left" (by decide) (by decide) (by decide)).1⟩

end ImageResource

namespace AudioResource

/-- C5: for every `AudioResource` constructed with `(base_path, song_title,
loop_name, buildup_name)`, `HasBuildup()` is true if and only if `buildup_name`
is non-empty; constructing with an empty buildup name yields
`HasBuildup() == false`, whatever the loop name and the title are. -/
theorem HasBuildup_iff (base_path song_title loop_name buildup_name : String)
    (buildup_mem loop_mem : Storage) :
    ((new base_path song_title loop_name buildup_name buildup_mem loop_mem).HasBuildup = true
      ↔ buildup_name ≠ "") ∧
    (new base_path song_title loop_name "" buildup_mem loop_mem).HasBuildup = false := by
  constructor
  · simp only [HasBuildup, new, song_info.new, Bool.not_eq_true', ne_eq]
    rw [← Bool.not_eq_true, String.isEmpty_iff]
  · rfl

/-- C6: `GetPcmDataSize(type)` is to be `sample_count * channel_count * 2`, and
the code misses it: with `2 ^ 29` samples in 2 channels in the loop record the
byte size `2 ^ 31` does not fit an `int`; the multiplication by 2 is done in
`int` and overflows to `-2 ^ 31`, which the conversion to `size_t` turns into
`2 ^ 64 - 2 ^ 31`. -/
theorem GetPcmDataSize_overflow :
    (songWith 2 536870912 44100).loop.sample_count = 536870912 ∧
    (songWith 2 536870912 44100).loop.channel_count = 2 ∧
    (songWith 2 536870912 44100).GetPcmDataSize Type_.LOOP = 18446744071562067968 ∧
    ((songWith 2 536870912 44100).GetPcmDataSize Type_.LOOP : Int) ≠
      (songWith 2 536870912 44100).loop.sample_count *
        (songWith 2 536870912 44100).loop.channel_count * 2 := by
  decide

/-- Where the product `sample_count * channel_count * 2` of two counts that
are not negative fits an `int`, `GetPcmDataSize(type)` is that product, for the
track selected by `type`, and it is computed from these two fields only. -/
theorem GetPcmDataSize_eq (self : AudioResource) (type : Type_)
    (hs : 0 ≤ (self.track type).sample_count)
    (hc : 0 ≤ (self.track type).channel_count)
    (hfit : (self.track type).sample_count * (self.track type).channel_count * 2 < 2 ^ 31) :
    (self.GetPcmDataSize type : Int) =
      (self.track type).sample_count * (self.track type).channel_count * 2 ∧
    ∀ other : AudioResource,
      (other.track type).sample_count = (self.track type).sample_count →
      (other.track type).channel_count = (self.track type).channel_count →
      other.GetPcmDataSize type = self.GetPcmDataSize type := by
  constructor
  · have hp : 0 ≤ (self.track type).sample_count * (self.track type).channel_count :=
      Int.mul_nonneg hs hc
    unfold GetPcmDataSize GetChannelCount wrapInt toSize
    generalize (self.track type).sample_count * (self.track type).channel_count = p at hp hfit
    omega
  · intro other h1 h2
    simp [GetPcmDataSize, GetChannelCount, h1, h2]

/-- The size given in the specification: 1000 samples in 2 channels make
4000 bytes. -/
theorem GetPcmDataSize_eq_witness :
    ((songWith 2 1000 44100).GetPcmDataSize Type_.LOOP : Int) = 1000 * 2 * 2 ∧
    (songWith 2 1000 44100).GetPcmDataSize Type_.LOOP = 4000 :=
  ⟨(GetPcmDataSize_eq (songWith 2 1000 44100) Type_.LOOP (by decide) (by decide)
      (by decide)).1, by decide⟩

end AudioResource

namespace AudioResource

/-- No operation changes the name of a track. -/
theorem name_apply (self : AudioResource) (op : Op) (type : Type_) :
    ((Op.apply self op).track type).name = (self.track type).name := by
  cases op with
  | SetBuildupBeatmap b => cases type <;> rfl
  | SetLoopBeatmap b => cases type <;> rfl
  | ReadAndDecode decode t =>
    simp only [Op.apply, ReadAndDecode]
    split
    · rfl
    · cases t <;> cases type <;> simp [track]

/-- No sequence of operations changes the name of a track. -/
theorem name_run (ops : List Op) (self : AudioResource) (type : Type_) :
    ((self.run ops).track type).name = (self.track type).name := by
  induction ops generalizing self with
  | nil => rfl
  | cons op ops ih =>
    have h := ih (Op.apply self op)
    simp only [run, List.foldl_cons] at h ⊢
    rw [h, name_apply]

/-- An operation leaves the decode fields of a populated track as they are. -/
theorem decoded_apply (self : AudioResource) (op : Op) (type : Type_)
    (h : self.decoded type = true) :
    ((Op.apply self op).track type).pcm_data = (self.track type).pcm_data ∧
    ((Op.apply self op).track type).channel_count = (self.track type).channel_count ∧
    ((Op.apply self op).track type).sample_count = (self.track type).sample_count ∧
    ((Op.apply self op).track type).sample_rate = (self.track type).sample_rate := by
  cases op with
  | SetBuildupBeatmap b => cases type <;> exact ⟨rfl, rfl, rfl, rfl⟩
  | SetLoopBeatmap b => cases type <;> exact ⟨rfl, rfl, rfl, rfl⟩
  | ReadAndDecode decode t =>
    simp only [Op.apply, ReadAndDecode]
    split
    · exact ⟨rfl, rfl, rfl, rfl⟩
    · rename_i hnone
      cases t <;> cases type <;> simp_all [track, decoded]

/-- A sequence of operations leaves the decode fields of a populated track as
they are. -/
theorem decoded_run (ops : List Op) (self : AudioResource) (type : Type_)
    (h : self.decoded type = true) :
    ((self.run ops).track type).pcm_data = (self.track type).pcm_data ∧
    ((self.run ops).track type).channel_count = (self.track type).channel_count ∧
    ((self.run ops).track type).sample_count = (self.track type).sample_count ∧
    ((self.run ops).track type).sample_rate = (self.track type).sample_rate := by
  induction ops generalizing self with
  | nil => exact ⟨rfl, rfl, rfl, rfl⟩
  | cons op ops ih =>
    obtain ⟨h1, h2, h3, h4⟩ := decoded_apply self op type h
    have h' : (Op.apply self op).decoded type = true := by
      simp only [decoded] at h ⊢
      rw [h1]
      exact h
    obtain ⟨k1, k2, k3, k4⟩ := ih (Op.apply self op) h'
    simp only [run, List.foldl_cons] at k1 k2 k3 k4 ⊢
    exact ⟨k1.trans h1, k2.trans h2, k3.trans h3, k4.trans h4⟩

/-- After `ReadAndDecode(type)` the PCM buffer of that track is populated. -/
theorem decoded_ReadAndDecode (decode : String → String → Decoded)
    (self : AudioResource) (type : Type_) :
    (self.ReadAndDecode decode type).decoded type = true := by
  simp only [ReadAndDecode, decoded]
  split
  · rename_i hsome
    simp [hsome]
  · cases type <;> simp [track]

end AudioResource

/-! ### Rounding to binary64 -/

namespace Double

/-- Rounding to an integer moves a number by a half at most. -/
theorem roundHalfEven_near (x : ℚ) : |(roundHalfEven x : ℚ) - x| ≤ 1 / 2 := by
  have h1 := Int.floor_le x
  have h2 := Int.lt_floor_add_one x
  unfold roundHalfEven
  split_ifs with ha hb hc
  · rw [abs_le]; constructor <;> linarith
  · rw [abs_le]; push_cast; constructor <;> linarith
  · rw [abs_le]; constructor <;> linarith
  · rw [abs_le]; push_cast; constructor <;> linarith

/-- A number less than a half above an integer is rounded to that integer. -/
theorem roundHalfEven_down (x : ℚ) (f : ℤ) (h1 : (f : ℚ) ≤ x) (h2 : x < f + 1 / 2) :
    roundHalfEven x = f := by
  have hf : ⌊x⌋ = f := Int.floor_eq_iff.2 ⟨h1, by linarith⟩
  unfold roundHalfEven
  rw [hf, if_pos (by linarith)]

/-- The binary exponent of a number between two consecutive powers of 2. -/
theorem log_eq (q : ℚ) (e : ℤ) (h1 : (2 : ℚ) ^ e ≤ q) (h2 : q < 2 ^ (e + 1)) :
    Int.log 2 q = e := by
  have hq : 0 < q := lt_of_lt_of_le (by positivity) h1
  have a1 : e ≤ Int.log 2 q :=
    (Int.zpow_le_iff_le_log (by norm_num) hq).1 (by exact_mod_cast h1)
  have a2 : Int.log 2 q < e + 1 :=
    (Int.lt_zpow_iff_log_lt (by norm_num) hq).1 (by exact_mod_cast h2)
  omega

/-- The rounding of a positive number of exponent `e`, from the rounding of
its significand. -/
theorem roundNearest_eq (q : ℚ) (e m : ℤ) (h1 : (2 : ℚ) ^ e ≤ q) (h2 : q < 2 ^ (e + 1))
    (he : -1022 ≤ e) (hm : roundHalfEven (q / 2 ^ (e - 52)) = m)
    (hov : (m : ℚ) * 2 ^ (e - 52) < 2 ^ 1024) :
    roundNearest q = num (m * 2 ^ (e - 52)) := by
  have hq : 0 < q := lt_of_lt_of_le (by positivity) h1
  have habs : |q| = q := abs_of_pos hq
  have hlog : max (Int.log 2 q) (-1022) = e := by
    rw [log_eq q e h1 h2]; exact max_eq_left he
  unfold roundNearest
  simp only [habs, hlog, hm]
  rw [if_neg hq.ne', if_neg (not_le.2 hov), if_neg (not_lt.2 hq.le)]

/-- The rounding of a positive number of exponent `e` whose significand lies
less than a half above the integer `m`. -/
theorem roundNearest_eval (q r : ℚ) (e m : ℤ) (h1 : (2 : ℚ) ^ e ≤ q) (h2 : q < 2 ^ (e + 1))
    (he : -1022 ≤ e) (hm1 : (m : ℚ) ≤ q / 2 ^ (e - 52)) (hm2 : q / 2 ^ (e - 52) < m + 1 / 2)
    (hov : (m : ℚ) * 2 ^ (e - 52) < 2 ^ 1024) (hr : (m : ℚ) * 2 ^ (e - 52) = r) :
    roundNearest q = num r := by
  rw [roundNearest_eq q e m h1 h2 he (roundHalfEven_down _ _ hm1 hm2) hov, hr]

/-- Zero is rounded to zero. -/
theorem roundNearest_zero : roundNearest 0 = num 0 := by
  simp [roundNearest]

/-- The rounding of a number in the normal range is finite and differs from it
by `2 ^ (-53)` of its magnitude at most. -/
theorem roundNearest_near (q : ℚ) (hlo : (2 : ℚ) ^ (-1022 : ℤ) ≤ |q|)
    (hhi : |q| < (2 : ℚ) ^ (1023 : ℤ)) :
    ∃ r : ℚ, roundNearest q = num r ∧ |r - q| ≤ |q| / 2 ^ 53 := by
  have hpos : 0 < |q| := lt_of_lt_of_le (by positivity) hlo
  have hq0 : q ≠ 0 := abs_pos.1 hpos
  have he1 : (-1022 : ℤ) ≤ Int.log 2 |q| :=
    (Int.zpow_le_iff_le_log (by norm_num) hpos).1 (by exact_mod_cast hlo)
  have hmax : max (Int.log 2 |q|) (-1022) = Int.log 2 |q| := max_eq_left he1
  have b1 : (2 : ℚ) ^ Int.log 2 |q| ≤ |q| := by
    have h : ((2 : ℕ) : ℚ) ^ Int.log 2 |q| ≤ |q| := Int.zpow_log_le_self (by norm_num) hpos
    exact_mod_cast h
  unfold roundNearest
  rw [if_neg hq0]
  simp only [hmax]
  generalize Int.log 2 |q| = e at b1
  have hu : (0 : ℚ) < 2 ^ (e - 52) := by positivity
  have hsplit : (2 : ℚ) ^ e = 2 ^ (e - 52) * 2 ^ 52 := by
    have h := zpow_add₀ (show (2 : ℚ) ≠ 0 by norm_num) (e - 52) 52
    rw [sub_add_cancel] at h
    rw [h]
    norm_cast
  have hnear := roundHalfEven_near (|q| / 2 ^ (e - 52))
  generalize roundHalfEven (|q| / 2 ^ (e - 52)) = m at hnear
  have hr0 : abs ((m : ℚ) * 2 ^ (e - 52) - abs q) ≤ 2 ^ (e - 52) / 2 := by
    have h : (m : ℚ) * 2 ^ (e - 52) - abs q
        = ((m : ℚ) - abs q / 2 ^ (e - 52)) * 2 ^ (e - 52) := by
      field_simp
    rw [h, abs_mul, abs_of_pos hu]
    calc abs ((m : ℚ) - abs q / 2 ^ (e - 52)) * 2 ^ (e - 52) ≤ 1 / 2 * 2 ^ (e - 52) :=
          mul_le_mul_of_nonneg_right hnear hu.le
      _ = 2 ^ (e - 52) / 2 := by ring
  have hulp : (2 : ℚ) ^ (e - 52) / 2 ≤ |q| / 2 ^ 53 := by
    rw [div_le_div_iff₀ (by norm_num) (by positivity)]
    calc (2 : ℚ) ^ (e - 52) * 2 ^ 53 = 2 ^ (e - 52) * 2 ^ 52 * 2 := by ring
      _ = 2 ^ e * 2 := by rw [← hsplit]
      _ ≤ |q| * 2 := by linarith
  have hr1 : abs ((m : ℚ) * 2 ^ (e - 52) - abs q) ≤ abs q / 2 ^ 53 := le_trans hr0 hulp
  have hov : ¬ (2 : ℚ) ^ 1024 ≤ (m : ℚ) * 2 ^ (e - 52) := by
    have h1 := (abs_le.1 hr1).2
    have h2 : |q| / 2 ^ 53 ≤ |q| := div_le_self hpos.le (by norm_num)
    have h4 : (2 : ℚ) ^ (1024 : ℕ) = 2 ^ (1023 : ℤ) * 2 := by
      rw [← zpow_natCast, show ((1024 : ℕ) : ℤ) = 1023 + 1 by norm_num,
        zpow_add_one₀ (by norm_num)]
    rw [h4]
    linarith
  rw [if_neg hov]
  refine ⟨_, rfl, ?_⟩
  by_cases hneg : q < 0
  · rw [if_pos hneg]
    rw [abs_of_neg hneg] at hr1 ⊢
    rw [show -((m : ℚ) * 2 ^ (e - 52)) - q = -((m : ℚ) * 2 ^ (e - 52) - -q) by ring, abs_neg]
    exact hr1
  · rw [if_neg hneg]
    rw [abs_of_nonneg (not_lt.1 hneg)] at hr1 ⊢
    exact hr1

/-- The rounding error, for the magnitudes that a duration goes through. -/
theorem roundNearest_near_mid (q : ℚ) (hlo : 1 / 2 ^ 40 ≤ |q|) (hhi : |q| ≤ 2 ^ 60) :
    ∃ r : ℚ, roundNearest q = num r ∧ |r - q| ≤ |q| / 2 ^ 53 := by
  apply roundNearest_near
  · refine le_trans ?_ hlo
    have h : (2 : ℚ) ^ (-1022 : ℤ) ≤ 2 ^ (-40 : ℤ) :=
      zpow_le_zpow_right₀ (by norm_num) (by norm_num)
    refine le_trans h (le_of_eq ?_)
    norm_num
  · refine lt_of_le_of_lt hhi ?_
    have h : (2 : ℚ) ^ (61 : ℤ) ≤ 2 ^ (1023 : ℤ) :=
      zpow_le_zpow_right₀ (by norm_num) (by norm_num)
    refine lt_of_lt_of_le ?_ h
    norm_num

/-- A rounded value has at least half the magnitude of the exact one and at
most `9 / 8` of it. -/
theorem near_bounds (d q : ℚ) (h : |d - q| ≤ |q| / 2 ^ 53) :
    |q| / 2 ≤ |d| ∧ |d| ≤ 9 / 8 * |q| := by
  have h0 : 0 ≤ |q| := abs_nonneg q
  have h1 := abs_le.1 (le_trans (abs_abs_sub_abs_le d q) h)
  constructor <;> linarith [h1.1, h1.2]

/-- The three operations of a duration, the quotient of two `int` values and
two products by 1000, each rounded, give a finite value within `2 ^ (-51)` of
the exact one, relatively. -/
theorem duration_near (sc sr : ℤ) (hsr : sr ≠ 0)
    (hsc1 : -2 ^ 31 ≤ sc) (hsc2 : sc < 2 ^ 31) (hsr1 : -2 ^ 31 ≤ sr) (hsr2 : sr < 2 ^ 31) :
    ∃ d : ℚ, mul (mul (div (ofInt sc) (ofInt sr)) (ofInt 1000)) (ofInt 1000) = num d ∧
      |d - (sc : ℚ) / (sr : ℚ) * 1000000| ≤ |(sc : ℚ) / (sr : ℚ) * 1000000| / 2 ^ 51 := by
  have hsrq : (sr : ℚ) ≠ 0 := by exact_mod_cast hsr
  by_cases hsc : sc = 0
  · subst hsc
    refine ⟨0, ?_, by simp⟩
    simp [div, mul, ofInt, hsrq, roundNearest_zero]
  · have a1 : (1 : ℚ) ≤ |(sc : ℚ)| := by
      have h : (1 : ℤ) ≤ |sc| := Int.one_le_abs hsc
      exact_mod_cast h
    have a2 : |(sc : ℚ)| ≤ 2 ^ 31 := by
      have h : |sc| ≤ 2 ^ 31 := abs_le.2 ⟨hsc1, hsc2.le⟩
      exact_mod_cast h
    have b1 : (1 : ℚ) ≤ |(sr : ℚ)| := by
      have h : (1 : ℤ) ≤ |sr| := Int.one_le_abs hsr
      exact_mod_cast h
    have b2 : |(sr : ℚ)| ≤ 2 ^ 31 := by
      have h : |sr| ≤ 2 ^ 31 := abs_le.2 ⟨hsr1, hsr2.le⟩
      exact_mod_cast h
    have hx : |(sc : ℚ) / (sr : ℚ)| = |(sc : ℚ)| / |(sr : ℚ)| := abs_div _ _
    have hb0 : (0 : ℚ) < |(sr : ℚ)| := by linarith
    have x1 : 1 / 2 ^ 31 ≤ |(sc : ℚ) / (sr : ℚ)| := by
      rw [hx, div_le_div_iff₀ (by norm_num) hb0]
      linarith
    have x2 : |(sc : ℚ) / (sr : ℚ)| ≤ 2 ^ 31 := by
      rw [hx, div_le_iff₀ hb0]
      nlinarith
    have hdiv : div (ofInt sc) (ofInt sr) = roundNearest ((sc : ℚ) / (sr : ℚ)) := by
      simp [div, ofInt, hsrq]
    have hmul : ∀ a : ℚ, mul (num a) (ofInt 1000) = roundNearest (a * 1000) := by
      intro a
      simp [mul, ofInt]
    rw [hdiv]
    generalize (sc : ℚ) / (sr : ℚ) = x at x1 x2
    obtain ⟨d1, e1, n1⟩ := roundNearest_near_mid x (by linarith) (by linarith)
    obtain ⟨l1, u1⟩ := near_bounds d1 x n1
    have y0 : |d1 * 1000| = 1000 * |d1| := by
      rw [abs_mul, abs_of_pos (by norm_num : (0 : ℚ) < 1000)]; ring
    obtain ⟨d2, e2, n2⟩ := roundNearest_near_mid (d1 * 1000)
      (by rw [y0]; linarith) (by rw [y0]; linarith)
    obtain ⟨l2, u2⟩ := near_bounds d2 (d1 * 1000) n2
    have z0 : |d2 * 1000| = 1000 * |d2| := by
      rw [abs_mul, abs_of_pos (by norm_num : (0 : ℚ) < 1000)]; ring
    obtain ⟨d3, e3, n3⟩ := roundNearest_near_mid (d2 * 1000)
      (by rw [z0, y0] at *; linarith) (by rw [z0, y0] at *; linarith)
    refine ⟨d3, ?_, ?_⟩
    · rw [e1, hmul, e2, hmul, e3]
    · have hX : |x * 1000000| = 1000000 * |x| := by
        rw [abs_mul, abs_of_pos (by norm_num : (0 : ℚ) < 1000000)]; ring
      have hsum : d3 - x * 1000000 =
          (d3 - d2 * 1000) + (1000 * (d2 - d1 * 1000) + 1000000 * (d1 - x)) := by ring
      have t1 : |1000 * (d2 - d1 * 1000)| = 1000 * |d2 - d1 * 1000| := by
        rw [abs_mul, abs_of_pos (by norm_num : (0 : ℚ) < 1000)]
      have t2 : |1000000 * (d1 - x)| = 1000000 * |d1 - x| := by
        rw [abs_mul, abs_of_pos (by norm_num : (0 : ℚ) < 1000000)]
      have tri := abs_add (d3 - d2 * 1000) (1000 * (d2 - d1 * 1000) + 1000000 * (d1 - x))
      have tri2 := abs_add (1000 * (d2 - d1 * 1000)) (1000000 * (d1 - x))
      rw [hsum, hX]
      rw [t1, t2] at tri2
      rw [y0] at n2 u2
      rw [z0] at n3
      have hx0 : 0 ≤ |x| := abs_nonneg x
      linarith

/-- The value of a duration, from the results of its three roundings. -/
theorem duration_eval (sc sr : ℤ) (q1 q2 q3 : ℚ) (hsr : sr ≠ 0)
    (h1 : roundNearest ((sc : ℚ) / (sr : ℚ)) = num q1)
    (h2 : roundNearest (q1 * 1000) = num q2)
    (h3 : roundNearest (q2 * 1000) = num q3) :
    mul (mul (div (ofInt sc) (ofInt sr)) (ofInt 1000)) (ofInt 1000) = num q3 := by
  have hsrq : (sr : ℚ) ≠ 0 := by exact_mod_cast hsr
  have hdiv : div (ofInt sc) (ofInt sr) = roundNearest ((sc : ℚ) / (sr : ℚ)) := by
    simp [div, ofInt, hsrq]
  have hmul : ∀ a : ℚ, mul (num a) (ofInt 1000) = roundNearest (a * 1000) := by
    intro a
    simp [mul, ofInt]
  rw [hdiv, h1, hmul, h2, hmul, h3]

/-- The duration of 88641 samples at 44100 Hz: the quotient 2.01 is not a
binary64 value, and the three roundings end `2 ^ (-32)` below 2,010,000. -/
theorem duration_88641 :
    mul (mul (div (ofInt 88641) (ofInt 44100)) (ofInt 1000)) (ofInt 1000)
      = num (8632884264959999 / 4294967296) := by
  apply duration_eval 88641 44100 (1131529406376837 / 562949953421312)
    (8840073487319039 / 4398046511104) _ (by norm_num)
  · exact roundNearest_eval _ _ 1 4526117625507348 (by norm_num) (by norm_num) (by norm_num)
      (by norm_num) (by norm_num) (by norm_num) (by norm_num)
  · exact roundNearest_eval _ _ 10 8840073487319039 (by norm_num) (by norm_num) (by norm_num)
      (by norm_num) (by norm_num) (by norm_num) (by norm_num)
  · exact roundNearest_eval _ _ 20 8632884264959999 (by norm_num) (by norm_num) (by norm_num)
      (by norm_num) (by norm_num) (by norm_num) (by norm_num)

/-- The duration of 44100 samples at 44100 Hz: every step is exact. -/
theorem duration_44100 :
    mul (mul (div (ofInt 44100) (ofInt 44100)) (ofInt 1000)) (ofInt 1000)
      = num 1000000 := by
  apply duration_eval 44100 44100 1 1000 _ (by norm_num)
  · exact roundNearest_eval _ _ 0 4503599627370496 (by norm_num) (by norm_num) (by norm_num)
      (by norm_num) (by norm_num) (by norm_num) (by norm_num)
  · exact roundNearest_eval _ _ 9 8796093022208000 (by norm_num) (by norm_num) (by norm_num)
      (by norm_num) (by norm_num) (by norm_num) (by norm_num)
  · exact roundNearest_eval _ _ 19 8589934592000000 (by norm_num) (by norm_num) (by norm_num)
      (by norm_num) (by norm_num) (by norm_num) (by norm_num)

/-- The duration of 22050 samples at 44100 Hz: every step is exact. -/
theorem duration_22050 :
    mul (mul (div (ofInt 22050) (ofInt 44100)) (ofInt 1000)) (ofInt 1000)
      = num 500000 := by
  apply duration_eval 22050 44100 (1 / 2) 500 _ (by norm_num)
  · exact roundNearest_eval _ _ (-1) 4503599627370496 (by norm_num) (by norm_num) (by norm_num)
      (by norm_num) (by norm_num) (by norm_num) (by norm_num)
  · exact roundNearest_eval _ _ 8 8796093022208000 (by norm_num) (by norm_num) (by norm_num)
      (by norm_num) (by norm_num) (by norm_num) (by norm_num)
  · exact roundNearest_eval _ _ 18 8589934592000000 (by norm_num) (by norm_num) (by norm_num)
      (by norm_num) (by norm_num) (by norm_num) (by norm_num)

end Double

namespace AudioResource

/-- C7, as stated, fails: with 88641 samples at 44100 Hz in the loop record
the real value of `sample_count / sample_rate * 1,000,000` is 2,010,000, but
the quotient 2.01 is not a binary64 value and `GetSongDurationUsec(LOOP)` is
`2,010,000 - 2 ^ (-32)`, that is 2009999.9999999998. -/
theorem GetSongDurationUsec_rounds :
    (songWith 2 88641 44100).loop.sample_count = 88641 ∧
    (songWith 2 88641 44100).loop.sample_rate = 44100 ∧
    (songWith 2 88641 44100).GetSongDurationUsec Type_.LOOP
      = Double.num (8632884264959999 / 4294967296) ∧
    (songWith 2 88641 44100).GetSongDurationUsec Type_.LOOP
      ≠ Double.num ((88641 : ℚ) / 44100 * 1000000) := by
  have h : (songWith 2 88641 44100).GetSongDurationUsec Type_.LOOP
      = Double.num (8632884264959999 / 4294967296) := Double.duration_88641
  refine ⟨rfl, rfl, h, ?_⟩
  rw [h]
  intro hne
  injection hne with hq
  norm_num at hq

/-- C7, amended: for every track whose `sample_count` and `sample_rate` are
`int` values with `sample_rate != 0`, `GetSongDurationUsec(type)` is a finite
double within `2 ^ (-51)`, relatively, of the real value of
`sample_count / sample_rate * 1,000,000`, a non-truncating quotient of the
fields of the record that `type` selects (the loop record for `LOOP`, the
buildup record for `BUILDUP`); 44100 samples at 44100 Hz give exactly
1,000,000 and 22050 samples at 44100 Hz give exactly 500,000, where an integer
division would give 0. -/
theorem GetSongDurationUsec_near (self : AudioResource) (type : Type_) (info : song_info)
    (hinfo : info = match type with
      | Type_.LOOP => self.loop
      | Type_.BUILDUP => self.buildup)
    (hrate : info.sample_rate ≠ 0)
    (hcount_lo : -2 ^ 31 ≤ info.sample_count) (hcount_hi : info.sample_count < 2 ^ 31)
    (hrate_lo : -2 ^ 31 ≤ info.sample_rate) (hrate_hi : info.sample_rate < 2 ^ 31) :
    (∃ d : ℚ, self.GetSongDurationUsec type = Double.num d ∧
      |d - (info.sample_count : ℚ) / (info.sample_rate : ℚ) * 1000000|
        ≤ |(info.sample_count : ℚ) / (info.sample_rate : ℚ) * 1000000| / 2 ^ 51) ∧
    (songWith 2 44100 44100).GetSongDurationUsec Type_.LOOP = Double.num 1000000 ∧
    (songWith 2 22050 44100).GetSongDurationUsec Type_.LOOP = Double.num 500000 ∧
    (22050 / 44100 * 1000000 : Int) = 0 := by
  refine ⟨?_, Double.duration_44100, Double.duration_22050, by decide⟩
  have htrack : self.track type = info := by
    rw [hinfo]
    cases type <;> rfl
  have h := Double.duration_near info.sample_count info.sample_rate hrate hcount_lo hcount_hi
    hrate_lo hrate_hi
  simp only [GetSongDurationUsec, htrack]
  exact h

/-- An instance of the amended C7: the duration of 88641 samples at 44100 Hz
in the loop record lies within `2 ^ (-51)`, relatively, of 2,010,000. -/
theorem GetSongDurationUsec_near_witness :
    ∃ d : ℚ, (songWith 2 88641 44100).GetSongDurationUsec Type_.LOOP = Double.num d ∧
      |d - ((88641 : Int) : ℚ) / ((44100 : Int) : ℚ) * 1000000|
        ≤ |((88641 : Int) : ℚ) / ((44100 : Int) : ℚ) * 1000000| / 2 ^ 51 :=
  (GetSongDurationUsec_near (songWith 2 88641 44100) Type_.LOOP
    (songWith 2 88641 44100).loop rfl (by decide) (by decide) (by decide) (by decide)
    (by decide)).1

/-- C8, as stated, fails: for a song freshly constructed in zero-filled
storage, `sample_count` and `sample_rate` are zero but `GetSongDurationUsec`
is NaN, the result of `0.0 / 0`, and not 0. -/
theorem GetSongDurationUsec_fresh_nan :
    (freshSong.track Type_.LOOP).sample_count = 0 ∧
    (freshSong.track Type_.LOOP).sample_rate = 0 ∧
    freshSong.GetSongDurationUsec Type_.LOOP = Double.nan ∧
    freshSong.GetSongDurationUsec Type_.LOOP ≠ Double.num 0 := by
  decide

/-- C8, amended: for a freshly constructed `AudioResource` on which
`ReadAndDecode` has not been called, the selected track's `sample_count` and
`sample_rate` are what the storage held before the construction; when both are
zero, `GetSongDurationUsec(type)` is NaN, for both `LOOP` and `BUILDUP`. -/
theorem GetSongDurationUsec_fresh (base_path song_title loop_name buildup_name : String)
    (buildup_mem loop_mem : Storage) (type : Type_)
    (hc : (if type = Type_.LOOP then loop_mem else buildup_mem).sample_count = 0)
    (hr : (if type = Type_.LOOP then loop_mem else buildup_mem).sample_rate = 0) :
    (∀ t : Type_,
      ((new base_path song_title loop_name buildup_name buildup_mem loop_mem).track t).sample_count
        = (if t = Type_.LOOP then loop_mem else buildup_mem).sample_count ∧
      ((new base_path song_title loop_name buildup_name buildup_mem loop_mem).track t).sample_rate
        = (if t = Type_.LOOP then loop_mem else buildup_mem).sample_rate) ∧
    (new base_path song_title loop_name buildup_name buildup_mem loop_mem).GetSongDurationUsec type
      = Double.nan := by
  constructor
  · intro t
    cases t <;> exact ⟨rfl, rfl⟩
  · cases type <;>
      simp_all [GetSongDurationUsec, track, new, song_info.new, Double.ofInt, Double.div,
        Double.mul]

/-- The instance of the amended C8 on zero-filled storage, for both tracks. -/
theorem GetSongDurationUsec_fresh_witness :
    (new "pack" "Test" "loop1" "" zeroMem zeroMem).GetSongDurationUsec Type_.LOOP = Double.nan ∧
    (new "pack" "Test" "loop1" "" zeroMem zeroMem).GetSongDurationUsec Type_.BUILDUP
      = Double.nan :=
  ⟨(GetSongDurationUsec_fresh "pack" "Test" "loop1" "" zeroMem zeroMem Type_.LOOP rfl rfl).2,
   (GetSongDurationUsec_fresh "pack" "Test" "loop1" "" zeroMem zeroMem Type_.BUILDUP rfl rfl).2⟩

/-- C9, as stated, fails: the constructor accepts an empty loop name, and
`GetName(LOOP)` is then the empty string. -/
theorem GetName_loop_empty : unnamedSong.GetName Type_.LOOP = "" := by
  decide

/-- C9, amended: for every `AudioResource` constructed with a non-empty
`loop_name`, `GetName(LOOP)` is that non-empty string, and it stays so after
any sequence of `SetBuildupBeatmap`, `SetLoopBeatmap` and `ReadAndDecode`. -/
theorem GetName_loop_run (base_path song_title loop_name buildup_name : String)
    (buildup_mem loop_mem : Storage) (ops : List Op) (h : loop_name ≠ "") :
    ((new base_path song_title loop_name buildup_name buildup_mem loop_mem).run ops).GetName
        Type_.LOOP = loop_name ∧
    ((new base_path song_title loop_name buildup_name buildup_mem loop_mem).run ops).GetName
        Type_.LOOP ≠ "" := by
  have hn : ((new base_path song_title loop_name buildup_name buildup_mem loop_mem).run
      ops).GetName Type_.LOOP = loop_name := by
    simp only [GetName]
    rw [name_run]
    rfl
  exact ⟨hn, by rw [hn]; exact h⟩

/-- An instance of the amended C9: the loop name `loop1` survives a beatmap
assignment and a decode. -/
theorem GetName_loop_run_witness :
    ((new "pack" "Test" "loop1" "" zeroMem zeroMem).run
      [Op.SetLoopBeatmap "x-o.",
       Op.ReadAndDecode (fun _ _ => ⟨[0, 0, 0, 0], 2, 1, 44100⟩) Type_.LOOP]).GetName
        Type_.LOOP = "loop1" :=
  (GetName_loop_run "pack" "Test" "loop1" "" zeroMem zeroMem _ (by decide)).1

/-- C10: `ReadAndDecode` is memoized per track: a second call for the same
type, whatever the decoder would return then, leaves the state of the first
call (PCM buffer, `channel_count`, `sample_count` and `sample_rate` included);
after the first call the track is decoded; and a decoded track keeps its PCM
buffer and its counts under every sequence of operations, so that it never
returns to the undecoded state. -/
theorem ReadAndDecode_memoized (decode1 decode2 : String → String → Decoded)
    (self : AudioResource) (type : Type_) :
    (self.ReadAndDecode decode1 type).ReadAndDecode decode2 type
      = self.ReadAndDecode decode1 type ∧
    (self.ReadAndDecode decode1 type).decoded type = true ∧
    ∀ (ops : List Op) (s : AudioResource) (t : Type_), s.decoded t = true →
      (s.run ops).decoded t = true ∧
      ((s.run ops).track t).pcm_data = (s.track t).pcm_data ∧
      ((s.run ops).track t).channel_count = (s.track t).channel_count ∧
      ((s.run ops).track t).sample_count = (s.track t).sample_count ∧
      ((s.run ops).track t).sample_rate = (s.track t).sample_rate := by
  refine ⟨?_, decoded_ReadAndDecode decode1 self type, ?_⟩
  · have hd := decoded_ReadAndDecode decode1 self type
    generalize self.ReadAndDecode decode1 type = s at hd
    simp only [decoded] at hd
    simp only [ReadAndDecode]
    split
    · rfl
    · rename_i hnone
      rw [hnone] at hd
      cases hd
  · intro ops s t hs
    obtain ⟨h1, h2, h3, h4⟩ := decoded_run ops s t hs
    refine ⟨?_, h1, h2, h3, h4⟩
    simp only [decoded] at hs ⊢
    rw [h1]
    exact hs

end AudioResource

/-! ### The log helper -/

/-- A character that does not occur in a list is found nowhere in it. -/
theorem lastOcc_single_none (x : Char) (v : List Char) (h : x ∉ v) :
    lastOcc [x] v = none := by
  induction v with
  | nil => simp [lastOcc, List.isPrefixOf]
  | cons y v ih =>
    have hy : x ≠ y := fun e => h (by simp [e])
    have hv : x ∉ v := fun e => h (by simp [e])
    simp [lastOcc, ih hv, List.isPrefixOf, hy]

/-- The last occurrence of a character that is followed by none of its kind. -/
theorem lastOcc_single (x : Char) (u v : List Char) (h : x ∉ v) :
    lastOcc [x] (u ++ x :: v) = some u.length := by
  induction u with
  | nil => simp [lastOcc, lastOcc_single_none x v h, List.isPrefixOf]
  | cons y u ih => simp [lastOcc, ih]

/-- The defining equation of `firstOcc` on a non-empty list. -/
theorem firstOcc_cons (pat : List Char) (c : Char) (cs : List Char) :
    firstOcc pat (c :: cs) =
      if pat.isPrefixOf (c :: cs) then some 0 else (firstOcc pat cs).map (· + 1) :=
  rfl

/-- A list that ends in two colons has a first occurrence of them, which
starts within the part before them or right after it. -/
theorem firstOcc_colons_append (c rest : List Char) :
    ∃ j, j ≤ c.length ∧ firstOcc [':', ':'] (c ++ ':' :: ':' :: rest) = some j := by
  induction c with
  | nil => exact ⟨0, le_refl _, by simp [firstOcc, List.isPrefixOf]⟩
  | cons y c ih =>
    obtain ⟨j, hj, hf⟩ := ih
    by_cases hp : List.isPrefixOf [':', ':'] (y :: (c ++ ':' :: ':' :: rest)) = true
    · exact ⟨0, Nat.zero_le _, by rw [List.cons_append, firstOcc_cons, if_pos hp]⟩
    · refine ⟨j + 1, by simpa using hj, ?_⟩
      rw [List.cons_append, firstOcc_cons, if_neg hp, hf]
      rfl

/-- Two colons do not occur before the end of a part that is free of them and
is followed by a blank. -/
theorem firstOcc_colons_skip (r w : List Char) (h : ¬ [':', ':'] <:+: r) :
    firstOcc [':', ':'] (r ++ ' ' :: w) =
      (firstOcc [':', ':'] w).map (· + (r.length + 1)) := by
  induction r with
  | nil =>
    rw [List.nil_append, firstOcc_cons]
    simp [List.isPrefixOf]
  | cons y r ih =>
    have hr : ¬ [':', ':'] <:+: r :=
      fun e => h (List.IsInfix.trans e (List.suffix_cons y r).isInfix)
    have hp : ¬ List.isPrefixOf [':', ':'] (y :: (r ++ ' ' :: w)) = true := by
      cases r with
      | nil => simp [List.isPrefixOf]
      | cons z r =>
        intro hne
        simp [List.isPrefixOf] at hne
        apply h
        rw [← hne.1, ← hne.2]
        exact (List.prefix_append [':', ':'] r).isInfix
    rw [List.cons_append, firstOcc_cons, if_neg hp, ih hr]
    cases firstOcc [':', ':'] w with
    | none => rfl
    | some k => simp [Nat.add_assoc]

/-- The log helper on the characters of `R C::M(A)`: the first two colons lie
behind the blank, the last blank before them is the one after `R`, and the
last opening bracket is the one before `A`. -/
theorem transform_chars (r c m a : List Char) (hc : ' ' ∉ c)
    (hr : ¬ [':', ':'] <:+: r) (ha : '(' ∉ a)
    (hlen : (r ++ ' ' :: (c ++ ':' :: ':' :: (m ++ '(' :: (a ++ [')'])))).length < 2 ^ 64) :
    __transform_pretty_function
        (String.mk (r ++ ' ' :: (c ++ ':' :: ':' :: (m ++ '(' :: (a ++ [')']))))) =
      some (String.mk (c ++ ':' :: ':' :: m) ++ "()") := by
  obtain ⟨j, hj, hfirst⟩ := firstOcc_colons_append c (m ++ '(' :: (a ++ [')']))
  have hfind : find (r ++ ' ' :: (c ++ ':' :: ':' :: (m ++ '(' :: (a ++ [')'])))) [':', ':']
      = r.length + 1 + j := by
    simp only [find, firstOcc_colons_skip r _ hr, hfirst, Option.map_some', Option.getD_some]
    omega
  have hhead : substr (r ++ ' ' :: (c ++ ':' :: ':' :: (m ++ '(' :: (a ++ [')'])))) 0
      (r.length + 1 + j) = some (r ++ ' ' :: c.take j) := by
    have h1 : List.take (r.length + 1 + j)
        (r ++ ' ' :: (c ++ ':' :: ':' :: (m ++ '(' :: (a ++ [')'])))) = r ++ ' ' :: c.take j := by
      rw [Nat.add_assoc, List.take_append, Nat.add_comm 1 j, List.take_succ_cons,
        List.take_append_of_le_length hj]
    simp [substr, h1]
  have hblank : rfind (r ++ ' ' :: c.take j) [' '] = r.length := by
    have hn : ' ' ∉ c.take j := fun e => hc (List.mem_of_mem_take e)
    simp [rfind, lastOcc_single ' ' r (c.take j) hn]
  have hopen : rfind (r ++ ' ' :: (c ++ ':' :: ':' :: (m ++ '(' :: (a ++ [')'])))) ['(']
      = r.length + 1 + c.length + 2 + m.length := by
    have hn : '(' ∉ a ++ [')'] := by
      intro e
      rcases List.mem_append.1 e with e | e
      · exact ha e
      · simp at e
    have hsplit : r ++ ' ' :: (c ++ ':' :: ':' :: (m ++ '(' :: (a ++ [')'])))
        = (r ++ ' ' :: (c ++ ':' :: ':' :: m)) ++ '(' :: (a ++ [')']) := by simp
    rw [hsplit]
    simp only [rfind, lastOcc_single '(' _ _ hn, Option.getD_some]
    simp
    omega
  have hl : r.length + 1 + c.length + 2 + m.length + 1 + a.length + 1 < 2 ^ 64 := by
    simp at hlen
    omega
  have hbegin : (r.length + 1) % 2 ^ 64 = r.length + 1 := Nat.mod_eq_of_lt (by omega)
  have hend : (r.length + 1 + c.length + 2 + m.length + 2 ^ 64 - (r.length + 1)) % 2 ^ 64
      = c.length + 2 + m.length := by
    omega
  have hbody : substr (r ++ ' ' :: (c ++ ':' :: ':' :: (m ++ '(' :: (a ++ [')']))))
      (r.length + 1) (c.length + 2 + m.length) = some (c ++ ':' :: ':' :: m) := by
    have h1 : List.drop (r.length + 1)
        (r ++ ' ' :: (c ++ ':' :: ':' :: (m ++ '(' :: (a ++ [')']))))
        = (c ++ ':' :: ':' :: m) ++ '(' :: (a ++ [')']) := by
      rw [List.drop_append]
      simp
    have h2 : (c ++ ':' :: ':' :: m).length = c.length + 2 + m.length := by
      simp
      omega
    have h3 : ¬ r.length + 1 >
        (r ++ ' ' :: (c ++ ':' :: ':' :: (m ++ '(' :: (a ++ [')'])))).length := by
      simp only [List.length_append, List.length_cons]
      omega
    rw [substr, if_neg h3, h1, ← h2, List.take_left']
    rfl
  show (do
    let colons := find (r ++ ' ' :: (c ++ ':' :: ':' :: (m ++ '(' :: (a ++ [')'])))) [':', ':']
    let head ← substr (r ++ ' ' :: (c ++ ':' :: ':' :: (m ++ '(' :: (a ++ [')'])))) 0 colons
    let begin := (rfind head [' '] + 1) % 2 ^ 64
    let end_ := (rfind (r ++ ' ' :: (c ++ ':' :: ':' :: (m ++ '(' :: (a ++ [')'])))) ['(']
      + 2 ^ 64 - begin) % 2 ^ 64
    let body ← substr (r ++ ' ' :: (c ++ ':' :: ':' :: (m ++ '(' :: (a ++ [')'])))) begin end_
    pure (String.mk body ++ "()") : Option String) = _
  simp only [hfind, hhead, Option.bind_eq_bind, Option.some_bind, hblank, hbegin, hopen, hend,
    hbody]
  rfl

/-- C16: `__transform_pretty_function` strips the return type and the argument
list: for all strings `R`, `C`, `M`, `A` where `R`, `C` and `M` contain no
blank and no opening bracket, `R` contains no `::` and `A` contains no opening
bracket, applied to `R C::M(A)` (of a length that a `size_t` holds) it returns
`C::M()`. -/
theorem transform_pretty_function_strips (R C M A : String)
    (hR : ' ' ∉ R.data ∧ '(' ∉ R.data) (hC : ' ' ∉ C.data ∧ '(' ∉ C.data)
    (hM : ' ' ∉ M.data ∧ '(' ∉ M.data) (hRc : ¬ "::".data <:+: R.data)
    (hA : '(' ∉ A.data)
    (hlen : (R ++ " " ++ C ++ "::" ++ M ++ "(" ++ A ++ ")").length < 2 ^ 64) :
    __transform_pretty_function (R ++ " " ++ C ++ "::" ++ M ++ "(" ++ A ++ ")")
      = some (C ++ "::" ++ M ++ "()") := by
  have hin : R ++ " " ++ C ++ "::" ++ M ++ "(" ++ A ++ ")" =
      String.mk (R.data ++ ' ' :: (C.data ++ ':' :: ':' :: (M.data ++ '(' :: (A.data ++ [')'])))) := by
    apply String.ext
    simp [String.data_append]
  have hout : C ++ "::" ++ M ++ "()" = String.mk (C.data ++ ':' :: ':' :: M.data) ++ "()" := by
    apply String.ext
    simp [String.data_append]
  rw [hin] at hlen ⊢
  rw [hout]
  exact transform_chars R.data C.data M.data A.data hC.1 hRc hA hlen

/-- The instance of C16 given with it: `bool ResourcePack::Init()` gives
`ResourcePack::Init()`. -/
theorem transform_pretty_function_strips_witness :
    __transform_pretty_function "bool ResourcePack::Init()" = some "ResourcePack::Init()" :=
  transform_pretty_function_strips "bool" "ResourcePack" "Init" "" (by decide) (by decide)
    (by decide) (by decide) (by decide) (by decide)

namespace AudioResource

/-- A character with a visible transition is one of the seven characters that
the `switch` maps to an event other than `NO_TRANSITION`. -/
theorem ParseBeatCharacter_visible (c : Char)
    (h : ParseBeatCharacter c ≠ Beat.NO_TRANSITION) :
    (c = 'x' ∧ ParseBeatCharacter c = Beat.VERTICAL_BLUR) ∨
    (c = 'o' ∧ ParseBeatCharacter c = Beat.HORIZONTAL_BLUR) ∨
    (c = '-' ∧ ParseBeatCharacter c = Beat.NO_BLUR) ∨
    (c = '+' ∧ ParseBeatCharacter c = Beat.BLACKOUT) ∨
    (c = '|' ∧ ParseBeatCharacter c = Beat.SHORT_BLACKOUT) ∨
    (c = ':' ∧ ParseBeatCharacter c = Beat.COLOR_ONLY) ∨
    (c = '*' ∧ ParseBeatCharacter c = Beat.IMAGE_ONLY) := by
  unfold ParseBeatCharacter at h ⊢
  split at h <;> simp at h ⊢

/-- Two characters with the same visible transition are equal. -/
theorem ParseBeatCharacter_inj (c1 c2 : Char)
    (h : ParseBeatCharacter c1 = ParseBeatCharacter c2)
    (hv : ParseBeatCharacter c1 ≠ Beat.NO_TRANSITION) : c1 = c2 := by
  have hv2 : ParseBeatCharacter c2 ≠ Beat.NO_TRANSITION := h ▸ hv
  rcases ParseBeatCharacter_visible c1 hv with
    ⟨e1, k1⟩ | ⟨e1, k1⟩ | ⟨e1, k1⟩ | ⟨e1, k1⟩ | ⟨e1, k1⟩ | ⟨e1, k1⟩ | ⟨e1, k1⟩ <;>
  rcases ParseBeatCharacter_visible c2 hv2 with
    ⟨e2, k2⟩ | ⟨e2, k2⟩ | ⟨e2, k2⟩ | ⟨e2, k2⟩ | ⟨e2, k2⟩ | ⟨e2, k2⟩ | ⟨e2, k2⟩ <;>
  first
    | (rw [e1, e2]; done)
    | (rw [k1, k2] at h; cases h)

/-- C15: `ParseBeatCharacter` is injective on visible transitions: two
characters with the same event other than `NO_TRANSITION` are equal; hence
each of the seven events other than `NO_TRANSITION` has exactly one source
character, and every one of the eight `Beat` values is produced by some
character. -/
theorem ParseBeatCharacter_injective :
    (∀ c1 c2 : Char, ParseBeatCharacter c1 = ParseBeatCharacter c2 →
      ParseBeatCharacter c1 ≠ Beat.NO_TRANSITION → c1 = c2) ∧
    (∀ e : Beat, e ≠ Beat.NO_TRANSITION → ∃! c : Char, ParseBeatCharacter c = e) ∧
    (∀ e : Beat, ∃ c : Char, ParseBeatCharacter c = e) := by
  have hsurj : ∀ e : Beat, ∃ c : Char, ParseBeatCharacter c = e := by
    intro e
    cases e
    · exact ⟨'x', rfl⟩
    · exact ⟨'o', rfl⟩
    · exact ⟨'-', rfl⟩
    · exact ⟨'+', rfl⟩
    · exact ⟨'|', rfl⟩
    · exact ⟨':', rfl⟩
    · exact ⟨'*', rfl⟩
    · exact ⟨'.', rfl⟩
  refine ⟨ParseBeatCharacter_inj, ?_, hsurj⟩
  intro e he
  obtain ⟨c, hc⟩ := hsurj e
  refine ⟨c, hc, ?_⟩
  intro d hd
  exact ParseBeatCharacter_inj d c (hd.trans hc.symm) (by rw [hd]; exact he)

/-- C12: track selection by discriminator: the result of each of `GetName`,
`GetBeatmap`, `GetSongDurationUsec`, `GetBeatDurationUsec`, `GetPcmData`,
`GetPcmDataSize`, `GetChannelCount` and `GetSampleRate` for `LOOP` depends only
on the loop record, and for `BUILDUP` only on the buildup record: two states
that agree on the one record give equal results for it, whatever their other
records are. -/
theorem accessors_selected_track (s1 s2 : AudioResource) :
    (s1.loop = s2.loop →
      s1.GetName Type_.LOOP = s2.GetName Type_.LOOP ∧
      s1.GetBeatmap Type_.LOOP = s2.GetBeatmap Type_.LOOP ∧
      s1.GetSongDurationUsec Type_.LOOP = s2.GetSongDurationUsec Type_.LOOP ∧
      s1.GetBeatDurationUsec Type_.LOOP = s2.GetBeatDurationUsec Type_.LOOP ∧
      s1.GetPcmData Type_.LOOP = s2.GetPcmData Type_.LOOP ∧
      s1.GetPcmDataSize Type_.LOOP = s2.GetPcmDataSize Type_.LOOP ∧
      s1.GetChannelCount Type_.LOOP = s2.GetChannelCount Type_.LOOP ∧
      s1.GetSampleRate Type_.LOOP = s2.GetSampleRate Type_.LOOP) ∧
    (s1.buildup = s2.buildup →
      s1.GetName Type_.BUILDUP = s2.GetName Type_.BUILDUP ∧
      s1.GetBeatmap Type_.BUILDUP = s2.GetBeatmap Type_.BUILDUP ∧
      s1.GetSongDurationUsec Type_.BUILDUP = s2.GetSongDurationUsec Type_.BUILDUP ∧
      s1.GetBeatDurationUsec Type_.BUILDUP = s2.GetBeatDurationUsec Type_.BUILDUP ∧
      s1.GetPcmData Type_.BUILDUP = s2.GetPcmData Type_.BUILDUP ∧
      s1.GetPcmDataSize Type_.BUILDUP = s2.GetPcmDataSize Type_.BUILDUP ∧
      s1.GetChannelCount Type_.BUILDUP = s2.GetChannelCount Type_.BUILDUP ∧
      s1.GetSampleRate Type_.BUILDUP = s2.GetSampleRate Type_.BUILDUP) := by
  constructor
  · intro h
    have ht : s1.track Type_.LOOP = s2.track Type_.LOOP := h
    simp only [GetName, GetBeatmap, GetSongDurationUsec, GetBeatDurationUsec, GetPcmData,
      GetPcmDataSize, GetChannelCount, GetSampleRate, ht, and_self]
  · intro h
    have ht : s1.track Type_.BUILDUP = s2.track Type_.BUILDUP := h
    simp only [GetName, GetBeatmap, GetSongDurationUsec, GetBeatDurationUsec, GetPcmData,
      GetPcmDataSize, GetChannelCount, GetSampleRate, ht, and_self]

/-- C13: the two beatmaps are independent: after `SetLoopBeatmap(b)`,
`GetBeatmap(LOOP)` is `b` while `GetBeatmap(BUILDUP)`, `GetTitle`, both names,
`HasBuildup` and the whole buildup record, its decode fields included, are
unchanged; after `SetBuildupBeatmap(b)`, `GetBeatmap(BUILDUP)` is `b` and the
whole loop record, the title, both names and `HasBuildup` are unchanged; and
setting the loop beatmap to `x-o.` gives `GetBeatmap(LOOP) == "x-o."`. -/
theorem SetBeatmap_independent (self : AudioResource) (b : String) :
    ((self.SetLoopBeatmap b).GetBeatmap Type_.LOOP = b ∧
      (self.SetLoopBeatmap b).GetBeatmap Type_.BUILDUP = self.GetBeatmap Type_.BUILDUP ∧
      (self.SetLoopBeatmap b).GetTitle = self.GetTitle ∧
      (self.SetLoopBeatmap b).GetName Type_.LOOP = self.GetName Type_.LOOP ∧
      (self.SetLoopBeatmap b).GetName Type_.BUILDUP = self.GetName Type_.BUILDUP ∧
      (self.SetLoopBeatmap b).HasBuildup = self.HasBuildup ∧
      (self.SetLoopBeatmap b).buildup = self.buildup) ∧
    ((self.SetBuildupBeatmap b).GetBeatmap Type_.BUILDUP = b ∧
      (self.SetBuildupBeatmap b).GetBeatmap Type_.LOOP = self.GetBeatmap Type_.LOOP ∧
      (self.SetBuildupBeatmap b).GetTitle = self.GetTitle ∧
      (self.SetBuildupBeatmap b).GetName Type_.LOOP = self.GetName Type_.LOOP ∧
      (self.SetBuildupBeatmap b).GetName Type_.BUILDUP = self.GetName Type_.BUILDUP ∧
      (self.SetBuildupBeatmap b).HasBuildup = self.HasBuildup ∧
      (self.SetBuildupBeatmap b).loop = self.loop) ∧
    (freshSong.SetLoopBeatmap "x-o.").GetBeatmap Type_.LOOP = "x-o." :=
  ⟨⟨rfl, rfl, rfl, rfl, rfl, rfl, rfl⟩, ⟨rfl, rfl, rfl, rfl, rfl, rfl, rfl⟩, by decide⟩

/-- C14: constructor and accessor round trip: the `AudioResource` constructed
from `(base_path, song_title, loop_name, buildup_name)` has
`GetTitle() == song_title`, `GetName(LOOP) == loop_name` and
`GetName(BUILDUP) == buildup_name`; the `ImageResource` constructed from a name
and an alignment `a` has `GetName() == name` and `GetAlignment() == a`, so an
image built with `ParseAlignmentString("right")` reports `RIGHT`. -/
theorem constructor_round_trip (base_path song_title loop_name buildup_name : String)
    (buildup_mem loop_mem : Storage) (image_path name : String) (a : ImageResource.Align) :
    (new base_path song_title loop_name buildup_name buildup_mem loop_mem).GetTitle
      = song_title ∧
    (new base_path song_title loop_name buildup_name buildup_mem loop_mem).GetName Type_.LOOP
      = loop_name ∧
    (new base_path song_title loop_name buildup_name buildup_mem loop_mem).GetName
      Type_.BUILDUP = buildup_name ∧
    (ImageResource.new image_path name a).GetName = name ∧
    (ImageResource.new image_path name a).GetAlignment = a ∧
    (ImageResource.new image_path name
      (ImageResource.ParseAlignmentString "right")).GetAlignment = ImageResource.Align.RIGHT :=
  ⟨rfl, rfl, rfl, rfl, rfl, rfl⟩

end AudioResource

namespace ResourcePack

/-- C11: for every pack, `GetAllSongs(out)` appends exactly the song entries
of the catalog to `out`, in catalog order, leaves the elements already in `out`
unchanged and returns their number; `GetAllImages` does the same with the
image entries; neither changes the pack; and a song with a buildup is counted
once. -/
theorem GetAll_appends (self : ResourcePack) (songs : List AudioResource)
    (images : List ImageResource) :
    ((self.GetAllSongs songs).2.1 = songs ++ self.song_list ∧
      (self.GetAllSongs songs).2.1.take songs.length = songs ∧
      (self.GetAllSongs songs).2.1.drop songs.length = self.song_list ∧
      (self.GetAllSongs songs).2.1.length = songs.length + self.song_list.length ∧
      (self.GetAllSongs songs).2.2 = self.song_list.length ∧
      (self.GetAllSongs songs).1 = self) ∧
    ((self.GetAllImages images).2.1 = images ++ self.image_list ∧
      (self.GetAllImages images).2.1.take images.length = images ∧
      (self.GetAllImages images).2.1.drop images.length = self.image_list ∧
      (self.GetAllImages images).2.1.length = images.length + self.image_list.length ∧
      (self.GetAllImages images).2.2 = self.image_list.length ∧
      (self.GetAllImages images).1 = self) ∧
    (AudioResource.buildupSong.HasBuildup = true ∧
      (smallPack.GetAllSongs []).2.1 = [AudioResource.buildupSong] ∧
      (smallPack.GetAllSongs []).2.2 = 1 ∧
      (smallPack.GetAllImages []).2.2 = 1) := by
  refine ⟨⟨rfl, ?_, ?_, ?_, rfl, rfl⟩, ⟨rfl, ?_, ?_, ?_, rfl, rfl⟩, by decide⟩ <;>
    simp [GetAllSongs, GetAllImages]

end ResourcePack
